import Mathlib

/-!
Shallow embedding of the AI-Document-Assistant-with-RAG repository
(`helpers_func.py`, `rag_functions.py`, `streamlit_app.py`).

Conventions of the embedding:
* Uploaded file contents are byte lists (`List Nat`, each element < 256).
* `hashlib.md5(...).hexdigest()` is embedded as a full executable MD5
  implementation over `Nat` arithmetic modulo `2 ^ 32`.
* The SQLite tables `chat_sessions` / `chat_messages` are embedded as lists of
  rows together with the `AUTOINCREMENT` counters; SQL `ORDER BY id` clauses are
  embedded as an insertion sort by the id column.
* Streamlit's `st.session_state` plus the database and the upload directory are
  bundled into one `AppState` record that the operation functions transform.
* Wall-clock timestamps, date stamps, the LLM response, and the success of
  external effects (disk writes, embedding/vector-store calls, the model call,
  SQLite connections) are passed as explicit parameters; a `Bool` flag models
  whether the corresponding `try` body succeeds or raises.
* `os.listdir` enumeration order is modelled as the insertion order of the
  stored-file list.
-/

/-! ### MD5 (the algorithm behind `hashlib.md5(...).hexdigest()` in `get_file_hash`) -/

/-- `2 ^ 32`, the modulus of 32-bit machine arithmetic used by MD5. -/
def M32 : Nat := 4294967296

/-- Rotate a 32-bit word left by `s` bits (for `0 ≤ s ≤ 32`). -/
def rotl32 (x s : Nat) : Nat := (x * 2 ^ s + x / 2 ^ (32 - s)) % M32

/-- Bitwise complement of a 32-bit word. -/
def not32 (x : Nat) : Nat := 4294967295 - x

/-- The 64 MD5 round constants `K[i] = floor(2^32 * |sin(i+1)|)` (RFC 1321). -/
def md5K : List Nat :=
  [0xd76aa478, 0xe8c7b756, 0x242070db, 0xc1bdceee,
   0xf57c0faf, 0x4787c62a, 0xa8304613, 0xfd469501,
   0x698098d8, 0x8b44f7af, 0xffff5bb1, 0x895cd7be,
   0x6b901122, 0xfd987193, 0xa679438e, 0x49b40821,
   0xf61e2562, 0xc040b340, 0x265e5a51, 0xe9b6c7aa,
   0xd62f105d, 0x02441453, 0xd8a1e681, 0xe7d3fbc8,
   0x21e1cde6, 0xc33707d6, 0xf4d50d87, 0x455a14ed,
   0xa9e3e905, 0xfcefa3f8, 0x676f02d9, 0x8d2a4c8a,
   0xfffa3942, 0x8771f681, 0x6d9d6122, 0xfde5380c,
   0xa4beea44, 0x4bdecfa9, 0xf6bb4b60, 0xbebfbc70,
   0x289b7ec6, 0xeaa127fa, 0xd4ef3085, 0x04881d05,
   0xd9d4d039, 0xe6db99e5, 0x1fa27cf8, 0xc4ac5665,
   0xf4292244, 0x432aff97, 0xab9423a7, 0xfc93a039,
   0x655b59c3, 0x8f0ccc92, 0xffeff47d, 0x85845dd1,
   0x6fa87e4f, 0xfe2ce6e0, 0xa3014314, 0x4e0811a1,
   0xf7537e82, 0xbd3af235, 0x2ad7d2bb, 0xeb86d391]

/-- The 64 MD5 per-round left-rotation amounts (RFC 1321). -/
def md5S : List Nat :=
  [7, 12, 17, 22, 7, 12, 17, 22, 7, 12, 17, 22, 7, 12, 17, 22,
   5, 9, 14, 20, 5, 9, 14, 20, 5, 9, 14, 20, 5, 9, 14, 20,
   4, 11, 16, 23, 4, 11, 16, 23, 4, 11, 16, 23, 4, 11, 16, 23,
   6, 10, 15, 21, 6, 10, 15, 21, 6, 10, 15, 21, 6, 10, 15, 21]

/-- The four 32-bit state words of the MD5 compression function. -/
structure MD5State where
  a : Nat
  b : Nat
  c : Nat
  d : Nat
deriving Repr, DecidableEq

/-- MD5 round mixing function: F, G, H, I depending on the round index. -/
def md5F (i b c d : Nat) : Nat :=
  if i < 16 then (b &&& c) ||| (not32 b &&& d)
  else if i < 32 then (d &&& b) ||| (not32 d &&& c)
  else if i < 48 then b ^^^ c ^^^ d
  else c ^^^ (b ||| not32 d)

/-- MD5 message-word index schedule per round. -/
def md5G (i : Nat) : Nat :=
  if i < 16 then i
  else if i < 32 then (5 * i + 1) % 16
  else if i < 48 then (3 * i + 5) % 16
  else (7 * i) % 16

/-- Read the `g`-th little-endian 32-bit word of a 64-byte chunk. -/
def wordLE (bytes : List Nat) (g : Nat) : Nat :=
  bytes.getD (4 * g) 0 + 256 * bytes.getD (4 * g + 1) 0 +
    65536 * bytes.getD (4 * g + 2) 0 + 16777216 * bytes.getD (4 * g + 3) 0

/-- One of the 64 rounds of the MD5 compression function. -/
def md5Round (chunk : List Nat) (st : MD5State) (i : Nat) : MD5State :=
  let f := md5F i st.b st.c st.d
  let tmp := (f + st.a + md5K.getD i 0 + wordLE chunk (md5G i)) % M32
  { a := st.d, d := st.c, c := st.b,
    b := (st.b + rotl32 tmp (md5S.getD i 0)) % M32 }

/-- Process one 64-byte chunk: 64 rounds, then add into the running state. -/
def md5Chunk (st : MD5State) (chunk : List Nat) : MD5State :=
  let r := (List.range 64).foldl (md5Round chunk) st
  { a := (st.a + r.a) % M32, b := (st.b + r.b) % M32,
    c := (st.c + r.c) % M32, d := (st.d + r.d) % M32 }

/-- The 8 little-endian bytes of the 64-bit message bit length. -/
def lenBytes64 (n : Nat) : List Nat := (List.range 8).map (fun i => n / 256 ^ i % 256)

/-- MD5 padding: append `0x80`, zero bytes up to 56 mod 64, then the bit length. -/
def md5Pad (msg : List Nat) : List Nat :=
  msg ++ [0x80] ++ List.replicate ((119 - msg.length % 64) % 64) 0 ++
    lenBytes64 (8 * msg.length % 2 ^ 64)

/-- Split a byte list into consecutive 64-byte chunks
(its argument always has a length that is a multiple of 64). -/
def splitChunks (l : List Nat) : List (List Nat) :=
  (List.range ((l.length + 63) / 64)).map (fun i => (l.drop (64 * i)).take 64)

/-- The MD5 initialisation vector. -/
def md5Init : MD5State :=
  { a := 0x67452301, b := 0xefcdab89, c := 0x98badcfe, d := 0x10325476 }

/-- The 4 little-endian bytes of a 32-bit word. -/
def wordBytes (n : Nat) : List Nat := (List.range 4).map (fun i => n / 256 ^ i % 256)

/-- The 16-byte MD5 digest of a byte string. -/
def md5Bytes (msg : List Nat) : List Nat :=
  let fin := (splitChunks (md5Pad msg)).foldl md5Chunk md5Init
  wordBytes fin.a ++ wordBytes fin.b ++ wordBytes fin.c ++ wordBytes fin.d

/-- The sixteen lowercase hexadecimal digit characters. -/
def hexChars : List Char := "0123456789abcdef".toList

/-- Two lowercase hex characters of one byte. -/
def byteHex (b : Nat) : List Char := [hexChars.getD (b / 16) '0', hexChars.getD (b % 16) '0']

/-- Lowercase hex string of a byte list, as Python's `.hexdigest()` renders it. -/
def hexdigest (bytes : List Nat) : String :=
  String.mk (bytes.foldr (fun b acc => byteHex b ++ acc) [])

/-- `get_file_hash` (rag_functions.py): MD5 hex digest of the raw uploaded bytes,
used to detect changes of the uploaded document. -/
def get_file_hash (file_content : List Nat) : String := hexdigest (md5Bytes file_content)

/-! ### Path helpers (`pathlib.Path(name).stem` / `.suffix` used by `save_uploaded_file`) -/

/-- Index of the last `.` in a file name, if any. -/
def lastDotIdx (name : String) : Option Nat :=
  ((List.range name.toList.length).filter (fun i => name.toList.getD i ' ' == '.')).getLast?

/-- `Path(name).suffix`: the extension from the last dot, empty when the last dot
is leading or trailing or absent. -/
def path_suffix (name : String) : String :=
  match lastDotIdx name with
  | some i =>
    if 0 < i ∧ i < name.toList.length - 1 then String.mk (name.toList.drop i) else ""
  | none => ""

/-- `Path(name).stem`: the file name with `path_suffix` removed. -/
def path_stem (name : String) : String :=
  match lastDotIdx name with
  | some i =>
    if 0 < i ∧ i < name.toList.length - 1 then String.mk (name.toList.take i) else name
  | none => name

/-- Python's `str.startswith`. -/
def strStartsWith (s p : String) : Bool := s.toList.take p.toList.length == p.toList

/-- Python truthiness of an optional string (`None` and `""` are falsy). -/
def strTruthy : Option String → Bool
  | some s => !s.toList.isEmpty
  | none => false

/-! ### Data model: rows of the two SQLite tables and the transient state -/

/-- A row of the `chat_sessions` table (`_init_db`, helpers_func.py). -/
structure SessionRow where
  id : Nat
  created_at : String
  document_path : Option String
  document_unique_name : Option String
  document_display_name : Option String
deriving Repr, DecidableEq

/-- A row of the `chat_messages` table (`_init_db`, helpers_func.py). -/
structure MessageRow where
  id : Nat
  chat_id : Nat
  timestamp : String
  question : String
  answer : String
  response_time : Int
  document : Option String
deriving Repr, DecidableEq

/-- One in-memory chat-history entry (the dict built by `add_to_chat_history`). -/
structure ChatEntry where
  timestamp : String
  question : String
  answer : String
  response_time : Int
  document : Option String
deriving Repr, DecidableEq

/-- The dict returned by `get_chat_metadata` and also the shape of
`st.session_state.current_document` (fields may be `NULL`/`None`). -/
structure DocMeta where
  path : Option String
  unique_name : Option String
  name : Option String
deriving Repr, DecidableEq

/-- The in-memory Chroma vector store handle, identified by its collection name
(`create_vector_db_from_document`, rag_functions.py). -/
structure VectorDB where
  collection_name : String
deriving Repr, DecidableEq

/-- One element of the list returned by `get_chat_sessions`. -/
structure SessionListEntry where
  id : Nat
  document_display_name : Option String
  last_answer : Option String
deriving Repr, DecidableEq

/-- The SQLite database: the two tables plus their `AUTOINCREMENT` counters. -/
structure DB where
  sessions : List SessionRow
  messages : List MessageRow
  next_session_id : Nat
  next_message_id : Nat
deriving Repr, DecidableEq

/-- The whole application state: the database, the upload directory contents
(file name and bytes, in creation order), and Streamlit's `st.session_state`
fields used by the three source files. -/
structure AppState where
  db : DB
  files : List (String × List Nat)
  chat_history : List ChatEntry
  process_logs : List String
  current_document : Option DocMeta
  vector_db : Option VectorDB
  document_processed : Bool
  chat_id : Option Nat
  current_doc_hash : Option String
  last_response : Option String
deriving Repr, DecidableEq

/-- An uploaded file as Streamlit hands it over: `.name` and `.getbuffer()`. -/
structure UploadedFile where
  name : String
  content : List Nat
deriving Repr, DecidableEq

/-- `UPLOAD_DIRECTORY` (helpers_func.py). -/
def UPLOAD_DIRECTORY : String := "./processed_docs"

/-- The empty database of a fresh `chat_data.sqlite3` after `_init_db`
(`AUTOINCREMENT` ids start at 1). -/
def emptyDB : DB := { sessions := [], messages := [], next_session_id := 1, next_message_id := 1 }

/-- The session state right after the module-level initialisation of
`streamlit_app.py` on a fresh process with a fresh database. -/
def initial_state : AppState :=
  { db := emptyDB, files := [], chat_history := [], process_logs := [],
    current_document := none, vector_db := none, document_processed := false,
    chat_id := none, current_doc_hash := none, last_response := none }

/-! ### SQL building blocks -/

/-- `INSERT INTO chat_sessions(created_at) VALUES (?)`; returns the new row id
(`cur.lastrowid`). -/
def insert_session (db : DB) (created : String) : DB × Nat :=
  let sid := db.next_session_id
  ({ db with
      sessions := db.sessions ++
        [{ id := sid, created_at := created, document_path := none,
           document_unique_name := none, document_display_name := none }],
      next_session_id := sid + 1 }, sid)

/-- `INSERT INTO chat_messages(chat_id, timestamp, question, answer, response_time, document)`. -/
def insert_message (db : DB) (cid : Nat) (e : ChatEntry) : DB :=
  { db with
      messages := db.messages ++
        [{ id := db.next_message_id, chat_id := cid, timestamp := e.timestamp,
           question := e.question, answer := e.answer,
           response_time := e.response_time, document := e.document }],
      next_message_id := db.next_message_id + 1 }

/-- `UPDATE chat_sessions SET document_path = ?, document_unique_name = ?,
document_display_name = ? WHERE id = ?`. -/
def update_session_doc (db : DB) (cid : Nat) (p u n : Option String) : DB :=
  { db with
      sessions := db.sessions.map (fun s =>
        if s.id = cid then
          { s with document_path := p, document_unique_name := u, document_display_name := n }
        else s) }

/-- Insert into a list kept sorted by the given comparison (used to embed SQL
`ORDER BY` clauses). -/
def insertSortedBy (le : α → α → Bool) (a : α) : List α → List α
  | [] => [a]
  | x :: xs => if le a x then a :: x :: xs else x :: insertSortedBy le a xs

/-- Insertion sort by the given comparison (the embedding of SQL `ORDER BY`). -/
def sortBy (le : α → α → Bool) : List α → List α
  | [] => []
  | x :: xs => insertSortedBy le x (sortBy le xs)

/-! ### helpers_func.py -/

/-- `add_log` (helpers_func.py): append a formatted entry to
`st.session_state.process_logs`; the wall-clock timestamp is a parameter. -/
def add_log (st : AppState) (ts msg log_type : String) : AppState :=
  { st with process_logs := st.process_logs ++ ["[" ++ ts ++ "] " ++ log_type ++ ": " ++ msg] }

/-- `clear_logs` (helpers_func.py). -/
def clear_logs (st : AppState) : AppState := { st with process_logs := [] }

/-- The outcome of one SQLite `with sqlite3.connect(...)` block of the source.
`ok`: every statement and the `conn.commit()` succeed. `raiseEarly`: the
connection or a statement raises before any Python-side assignment was made,
so the transaction is rolled back and nothing is recorded. `raiseCommit`: the
final `conn.commit()` raises after the Python-side assignments were made; the
inserted row is rolled back (the `AUTOINCREMENT` counter with it) but the
assignment `st.session_state.chat_id = cur.lastrowid`, which the source makes
before the commit, survives the raise. -/
inductive TxnOutcome
  | ok
  | raiseEarly
  | raiseCommit
deriving Repr, DecidableEq

/-- The second `with` block of `add_to_chat_history` (helpers_func.py): insert
the message row and, when an active document is set, upsert the owning
session's document metadata; `insert_ok` models whether this block commits --
on a raise it is rolled back whole and the error is logged and swallowed. -/
def persist_message (st : AppState) (cid : Nat) (e : ChatEntry) (insert_ok : Bool) :
    AppState :=
  if insert_ok then
    let db := insert_message st.db cid e
    let db :=
      match st.current_document with
      | some d => update_session_doc db cid d.path d.unique_name d.name
      | none => db
    { st with db := db }
  else st

/-- `add_to_chat_history` (helpers_func.py): append the entry to the in-memory
history, then persist it. When no chat session id is set, the first `with`
block inserts a session row and assigns `st.session_state.chat_id =
cur.lastrowid` before `conn.commit()`, so a commit failure (`raiseCommit`)
leaves `chat_id` pointing at the rolled-back row's id while the row itself is
gone, and the raise skips the message block; every failure is logged and
swallowed. -/
def add_to_chat_history (st : AppState) (ts question answer : String)
    (response_time : Int) (doc_name : Option String)
    (create_txn : TxnOutcome) (insert_ok : Bool) : AppState :=
  let chat_entry : ChatEntry :=
    { timestamp := ts, question := question, answer := answer,
      response_time := response_time, document := doc_name }
  let st := { st with chat_history := st.chat_history ++ [chat_entry] }
  match st.chat_id with
  | none =>
    match create_txn with
    | TxnOutcome.raiseEarly => st
    | TxnOutcome.raiseCommit => { st with chat_id := some st.db.next_session_id }
    | TxnOutcome.ok =>
      let (db, cid) := insert_session st.db ts
      persist_message { st with db := db, chat_id := some cid } cid chat_entry insert_ok
  | some c => persist_message st c chat_entry insert_ok

/-- `start_new_chat_session` (helpers_func.py): insert a new session row and
make it current; `new_chat_id` and `st.session_state.chat_id` are assigned
before `conn.commit()`, so a commit failure (`raiseCommit`) returns and
retains the rolled-back row's id; then reset the in-memory chat state while
keeping the current document, vector DB and document hash. -/
def start_new_chat_session (st : AppState) (ts : String) (create_txn : TxnOutcome) :
    AppState × Option Nat :=
  let (st, new_chat_id) :=
    match create_txn with
    | TxnOutcome.ok =>
      let (db, sid) := insert_session st.db ts
      ({ st with db := db, chat_id := some sid }, some sid)
    | TxnOutcome.raiseEarly => (st, none)
    | TxnOutcome.raiseCommit =>
      ({ st with chat_id := some st.db.next_session_id }, some st.db.next_session_id)
  ({ st with chat_history := [], process_logs := [], last_response := none }, new_chat_id)

/-- The correlated subquery of `get_chat_sessions`: the answer of the most recent
message of a session (`ORDER BY m.id DESC LIMIT 1`). -/
def last_answer_of (db : DB) (sid : Nat) : Option String :=
  ((sortBy (fun a b : MessageRow => b.id ≤ a.id)
      (db.messages.filter (fun m => m.chat_id == sid))).head?).map (fun m => m.answer)

/-- `get_chat_sessions` (helpers_func.py): all sessions, newest first
(`ORDER BY s.id DESC`), each with its display name and last answer. -/
def get_chat_sessions (db : DB) : List SessionListEntry :=
  (sortBy (fun a b : SessionRow => b.id ≤ a.id) db.sessions).map (fun s =>
    { id := s.id, document_display_name := s.document_display_name,
      last_answer := last_answer_of db s.id })

/-- `get_chat_messages` (helpers_func.py): the messages of one session, oldest
first (`ORDER BY id ASC`), projected to the selected columns. -/
def get_chat_messages (db : DB) (chat_id : Nat) : List ChatEntry :=
  (sortBy (fun a b : MessageRow => a.id ≤ b.id)
      (db.messages.filter (fun m => m.chat_id == chat_id))).map (fun m =>
    { timestamp := m.timestamp, question := m.question, answer := m.answer,
      response_time := m.response_time, document := m.document })

/-- `get_chat_metadata` (helpers_func.py): the stored document metadata of a
session, or `None` when no row matches. -/
def get_chat_metadata (db : DB) (chat_id : Nat) : Option DocMeta :=
  match db.sessions.find? (fun s => s.id == chat_id) with
  | none => none
  | some s =>
    some { path := s.document_path, unique_name := s.document_unique_name,
           name := s.document_display_name }

/-- `delete_chat_session` (helpers_func.py): delete the messages of the session,
then the session row, in one SQLite transaction; `ok` models whether the
transaction commits — on a raise the `with` block rolls everything back, so the
database is unchanged. -/
def delete_chat_session (db : DB) (chat_id : Nat) (ok : Bool) : DB :=
  if ok then
    { db with
        messages := db.messages.filter (fun m => !(m.chat_id == chat_id)),
        sessions := db.sessions.filter (fun s => !(s.id == chat_id)) }
  else db

/-- `save_uploaded_file` (helpers_func.py): if a stored file name starts with the
upload's stem followed by `_`, return the existing file verbatim; otherwise
write the bytes under `{stem}_{date}{suffix}`. `ok` models the `try` block
(on a raise `(None, None)` is returned); `date` is `strftime("%Y%m%d")`. -/
def save_uploaded_file (st : AppState) (uploaded_file : UploadedFile)
    (date ts : String) (ok : Bool) : AppState × Option (String × String) :=
  if ok then
    let file_extension := path_suffix uploaded_file.name
    let original_name := path_stem uploaded_file.name
    match st.files.find? (fun f => strStartsWith f.1 (original_name ++ "_")) with
    | some f =>
      let existing_path := UPLOAD_DIRECTORY ++ "/" ++ f.1
      (add_log st ts ("SAME Document found in memory: " ++ f.1) "INFO",
       some (existing_path, f.1))
    | none =>
      let unique_filename := original_name ++ "_" ++ date ++ file_extension
      let file_path := UPLOAD_DIRECTORY ++ "/" ++ unique_filename
      let st := { st with files := st.files ++ [(unique_filename, uploaded_file.content)] }
      let st := add_log st ts ("This file: " ++ unique_filename ++ ", got the FIRST time") "INFO"
      let st := add_log st ts ("File saved successfully: " ++ unique_filename) "INFO"
      (st, some (file_path, unique_filename))
  else
    (add_log st ts "Error saving file" "ERROR", none)

/-! ### rag_functions.py -/

/-- `create_vector_db_from_document` (rag_functions.py): build a Chroma index
from the stored file at `doc_path`, named `doc_` plus the first 8 hex digits of
the file's MD5; `None` when the file is missing (`ingest_docs`) or when the
embedding model / vector store fails (`ok = false`). Its `add_log` calls are
not threaded here because no claim observes them. -/
def create_vector_db_from_document (files : List (String × List Nat)) (ok : Bool)
    (doc_path : String) : Option VectorDB :=
  if ok then
    match files.find? (fun f => UPLOAD_DIRECTORY ++ "/" ++ f.1 == doc_path) with
    | none => none
    | some f =>
      some { collection_name := "doc_" ++ String.mk ((get_file_hash f.2).toList.take 8) }
  else none

/-- `process_query` (rag_functions.py): answer `user_input` against the current
vector DB and record the turn. `llm_ok` models `preload_model` plus the
generation call (`response`, taking `rtime` seconds); on a missing model, or an
exception (including `vector_db` being `None` when the retriever is built), the
turn aborts with an error and nothing is recorded. Log entries with dynamic
values are modelled by their static prefix. -/
def process_query (st : AppState) (user_input ts : String) (llm_ok : Bool)
    (response : String) (rtime : Int) (create_txn : TxnOutcome) (insert_ok : Bool) :
    AppState :=
  let st := add_log st ts "Retrieving preloaded model..." "INFO"
  if llm_ok then
    match st.vector_db with
    | none => add_log st ts "An error occurred during query processing" "ERROR"
    | some _ =>
      let st := add_log st ts "Setting up document retriever..." "INFO"
      let st := add_log st ts "Searching for relevant document chunks..." "INFO"
      let st := add_log st ts "Creating processing chain..." "INFO"
      let st := add_log st ts "Generating response..." "INFO"
      let st := add_log st ts "Response generated successfully" "INFO"
      let st := add_log st ts "Total process time" "INFO"
      let st := { st with last_response := some response }
      add_to_chat_history st ts user_input response rtime
        (match st.current_document with
         | some d => d.name
         | none => some "Unknown") create_txn insert_ok
  else add_log st ts "Model preload failed" "ERROR"

/-- `process_query_with_document` (rag_functions.py): hash the uploaded bytes;
if the hash differs from `current_doc_hash` save the file, replace the current
document and hash, build a fresh vector DB and answer; if it matches, answer
against the existing vector DB (when one is set). The second component counts
the calls to `create_vector_db_from_document` made by this turn. -/
def process_query_with_document (st : AppState) (uploaded_file : UploadedFile)
    (user_input ts date : String) (save_ok build_ok llm_ok : Bool)
    (response : String) (rtime : Int) (create_txn : TxnOutcome) (insert_ok : Bool) :
    AppState × Nat :=
  let file_hash := get_file_hash uploaded_file.content
  if st.current_doc_hash ≠ some file_hash then
    let st := clear_logs st
    let st := add_log st ts ("Processing new document: " ++ uploaded_file.name) "INFO"
    match save_uploaded_file st uploaded_file date ts save_ok with
    | (st, none) => (st, 0)
    | (st, some (file_path, unique_filename)) =>
      let st :=
        { st with
            current_document :=
              some { name := some uploaded_file.name, path := some file_path,
                     unique_name := some unique_filename },
            current_doc_hash := some file_hash }
      match create_vector_db_from_document st.files build_ok file_path with
      | none => (st, 1)
      | some vdb =>
        let st := { st with vector_db := some vdb, document_processed := true }
        (process_query st user_input ts llm_ok response rtime create_txn insert_ok, 1)
  else
    if st.vector_db.isSome then
      (process_query st user_input ts llm_ok response rtime create_txn insert_ok, 0)
    else (st, 0)

/-! ### streamlit_app.py -/

/-- The session-switch branch of `main` (streamlit_app.py, the `st.radio`
handler): when the selected id differs from the current one, make it current,
load its stored document metadata and — only when a document path is recorded
and non-empty — restore the document and rebuild the vector DB from the path.
The second component counts the calls to `create_vector_db_from_document`. -/
def switch_session (st : AppState) (selected_id : Nat) (build_ok : Bool) :
    AppState × Nat :=
  if st.chat_id = some selected_id then (st, 0)
  else
    let st := { st with chat_id := some selected_id }
    match get_chat_metadata st.db selected_id with
    | some meta =>
      if strTruthy meta.path then
        let st := { st with current_document := some meta }
        let st :=
          match meta.path with
          | some p =>
            match create_vector_db_from_document st.files build_ok p with
            | some vdb => { st with vector_db := some vdb, document_processed := true }
            | none => st
          | none => st
        (st, 1)
      else (st, 0)
    | none => (st, 0)

/-- The Delete button handler of `main` (streamlit_app.py): delete the current
session (a `None` current id makes the SQL `WHERE` clauses match nothing), then
clear the current id and the in-memory history. -/
def delete_current_session (st : AppState) (ok : Bool) : AppState :=
  let db :=
    match st.chat_id with
    | some cid => delete_chat_session st.db cid ok
    | none => st.db
  { st with db := db, chat_id := none, chat_history := [] }

/-- The New Chat button handler of `main` (streamlit_app.py). -/
def new_chat_click (st : AppState) (ts : String) (create_txn : TxnOutcome) : AppState :=
  let (st, new_id) := start_new_chat_session st ts create_txn
  { st with chat_id := new_id }

/-! ### Generic facts about the `ORDER BY` embedding -/

/-- Inserting below all elements keeps the element in front. -/
theorem insertSortedBy_cons_of_le (le : α → α → Bool) (a x : α) (xs : List α)
    (h : le a x = true) : insertSortedBy le a (x :: xs) = a :: x :: xs := by
  simp [insertSortedBy, h]

/-- Inserting an element that compares below nothing appends it at the end. -/
theorem insertSortedBy_eq_append (le : α → α → Bool) (a : α) (l : List α)
    (h : ∀ x ∈ l, le a x = false) : insertSortedBy le a l = l ++ [a] := by
  induction l with
  | nil => rfl
  | cons x xs ih =>
    have hx : le a x = false := h x (by simp)
    simp only [insertSortedBy, hx]
    simp [ih (fun y hy => h y (by simp [hy]))]

/-- Sorting a list that is already sorted (pairwise `le`) leaves it unchanged. -/
theorem sortBy_eq_self (le : α → α → Bool) (l : List α)
    (h : l.Pairwise (fun a b => le a b = true)) : sortBy le l = l := by
  induction l with
  | nil => rfl
  | cons x xs ih =>
    have hx := (List.pairwise_cons.mp h).1
    have ih2 := ih (List.pairwise_cons.mp h).2
    cases xs with
    | nil => simp [sortBy, insertSortedBy]
    | cons y ys =>
      simp only [sortBy] at ih2 ⊢
      rw [ih2, insertSortedBy_cons_of_le le x y ys (hx y (by simp))]

/-- Sorting a list that is pairwise reversed with respect to `le` reverses it. -/
theorem sortBy_eq_reverse (le : α → α → Bool) (l : List α)
    (h : l.Pairwise (fun a b => le a b = false)) : sortBy le l = l.reverse := by
  induction l with
  | nil => rfl
  | cons x xs ih =>
    have hx := (List.pairwise_cons.mp h).1
    have ih2 := ih (List.pairwise_cons.mp h).2
    simp only [sortBy]
    rw [ih2, insertSortedBy_eq_append le x xs.reverse
      (fun y hy => hx y (List.mem_reverse.mp hy))]
    simp

/-- `insertSortedBy` only adds the inserted element. -/
theorem mem_insertSortedBy (le : α → α → Bool) (a x : α) (l : List α) :
    x ∈ insertSortedBy le a l ↔ x = a ∨ x ∈ l := by
  induction l with
  | nil => simp [insertSortedBy]
  | cons y ys ih =>
    by_cases hc : le a y = true
    · simp [insertSortedBy, hc]
    · simp only [insertSortedBy, hc]
      simp [ih]
      tauto

/-- `sortBy` is a permutation: membership is preserved. -/
theorem mem_sortBy (le : α → α → Bool) (x : α) (l : List α) :
    x ∈ sortBy le l ↔ x ∈ l := by
  induction l with
  | nil => simp [sortBy]
  | cons y ys ih => simp [sortBy, mem_insertSortedBy, ih]

/-- In a strictly id-ascending message list, an element whose id bounds all
others is the last element. -/
theorem getLast?_of_max (l : List MessageRow) (m : MessageRow)
    (hpw : l.Pairwise (fun a b => a.id < b.id)) (hm : m ∈ l)
    (hmax : ∀ x ∈ l, x.id ≤ m.id) : l.getLast? = some m := by
  induction l with
  | nil => cases hm
  | cons x xs ih =>
    cases xs with
    | nil =>
      simp at hm
      simp [hm]
    | cons y ys =>
      rw [List.getLast?_cons_cons]
      have hpw2 := (List.pairwise_cons.mp hpw).2
      rcases List.mem_cons.mp hm with hmx | hmtl
      · exfalso
        have hlt : x.id < y.id := (List.pairwise_cons.mp hpw).1 y (by simp)
        have hle : y.id ≤ m.id := hmax y (by simp)
        rw [hmx] at hle
        omega
      · exact ih hpw2 hmtl (fun z hz => hmax z (by simp [hz]))

/-! ### Invariants -/

/-- The foreign-key invariant of the store plus the validity of the current
session id: every message row references an existing session row, and the
current `chat_id`, when set, references an existing session row. -/
def FKInv (st : AppState) : Prop :=
  (st.db.messages.all (fun m => st.db.sessions.any (fun s => s.id == m.chat_id)) &&
    (match st.chat_id with
     | some cid => st.db.sessions.any (fun s => s.id == cid)
     | none => true)) = true

/-- Strictly ascending ids of the message table together with the
`AUTOINCREMENT` bound, as insertion order produces them. -/
def DB.MsgWF (db : DB) : Prop :=
  db.messages.Pairwise (fun a b => a.id < b.id) ∧
    ∀ m ∈ db.messages, m.id < db.next_message_id

/-- `FKInv` only looks at the database and the current session id. -/
theorem FKInv_of_eq (st st2 : AppState) (hdb : st2.db = st.db)
    (hcid : st2.chat_id = st.chat_id) (h : FKInv st) : FKInv st2 := by
  simpa [FKInv, hdb, hcid] using h

/-- `update_session_doc` does not change the message table, the counters, or the
set of session ids. -/
theorem update_session_doc_frame (db : DB) (cid : Nat) (p u n : Option String) :
    (update_session_doc db cid p u n).messages = db.messages ∧
    (update_session_doc db cid p u n).next_message_id = db.next_message_id ∧
    (update_session_doc db cid p u n).sessions.map (fun s => s.id) =
      db.sessions.map (fun s => s.id) := by
  refine ⟨rfl, rfl, ?_⟩
  simp only [update_session_doc, List.map_map]
  apply List.map_congr_left
  intro s _
  by_cases h : s.id = cid <;> simp [h]

/-- An existing session id still exists after `update_session_doc`. -/
theorem update_session_doc_exists (db : DB) (cid k : Nat) (p u n : Option String)
    (h : ∃ s ∈ db.sessions, s.id = k) :
    ∃ s ∈ (update_session_doc db cid p u n).sessions, s.id = k := by
  obtain ⟨s, hs, hid⟩ := h
  refine ⟨(if s.id = cid then
    { s with document_path := p, document_unique_name := u, document_display_name := n }
    else s), ?_, ?_⟩
  · exact List.mem_map_of_mem _ hs
  · by_cases hc : s.id = cid
    · rw [if_pos hc]
      exact hid
    · rw [if_neg hc]
      exact hid

/-- Over a session-row list, updating the rows with a given id and then finding
the first row with that id yields the written document metadata. -/
theorem find?_update_meta (l : List SessionRow) (cid : Nat) (p u n : Option String)
    (hex : ∃ s ∈ l, s.id = cid) :
    (match (l.map fun s => if s.id = cid then
          { s with document_path := p, document_unique_name := u, document_display_name := n }
          else s).find? (fun s => s.id == cid) with
     | none => none
     | some s =>
       some ({ path := s.document_path, unique_name := s.document_unique_name,
               name := s.document_display_name } : DocMeta))
      = some { path := p, unique_name := u, name := n } := by
  induction l with
  | nil => simp at hex
  | cons s rest ih =>
    by_cases h : s.id = cid
    · simp [List.find?, h]
    · obtain ⟨s0, hs0, hid0⟩ := hex
      have hrest : s0 ∈ rest := by
        rcases List.mem_cons.mp hs0 with h0 | h0
        · exact absurd (h0 ▸ hid0) h
        · exact h0
      simp only [List.map_cons, if_neg h, List.find?]
      rw [show ((s.id == cid) = false) from by simpa using h]
      exact ih ⟨s0, hrest, hid0⟩

/-- After an update of the session whose id exists, `get_chat_metadata` returns
exactly the written document metadata. -/
theorem get_chat_metadata_update (db : DB) (cid : Nat) (p u n : Option String)
    (hex : ∃ s ∈ db.sessions, s.id = cid) :
    get_chat_metadata (update_session_doc db cid p u n) cid =
      some { path := p, unique_name := u, name := n } := by
  simpa [get_chat_metadata, update_session_doc] using find?_update_meta db.sessions cid p u n hex

/-- A session id absent from the table makes `get_chat_metadata` return `None`. -/
theorem get_chat_metadata_none (db : DB) (k : Nat)
    (h : ∀ s ∈ db.sessions, s.id ≠ k) : get_chat_metadata db k = none := by
  simp only [get_chat_metadata]
  rw [List.find?_eq_none.mpr]
  intro s hs
  simpa using h s hs

/-- The message row inserted by a persisted `add_to_chat_history` call. -/
def newRow (db : DB) (cid : Nat) (ts q a : String) (rt : Int) (doc : Option String) :
    MessageRow :=
  { id := db.next_message_id, chat_id := cid, timestamp := ts, question := q,
    answer := a, response_time := rt, document := doc }

/-- A persisted turn with a current session: the database gains exactly the new
message row, the counter advances, the session id set and the current id are
unchanged. -/
theorem add_some_db (st : AppState) (cid : Nat) (ts q a : String) (rt : Int)
    (doc : Option String) (ct : TxnOutcome) (hid : st.chat_id = some cid) :
    (add_to_chat_history st ts q a rt doc ct true).db.messages =
      st.db.messages ++ [newRow st.db cid ts q a rt doc] ∧
    (add_to_chat_history st ts q a rt doc ct true).db.next_message_id =
      st.db.next_message_id + 1 ∧
    (add_to_chat_history st ts q a rt doc ct true).chat_id = some cid := by
  cases hd : st.current_document <;>
    simp [add_to_chat_history, persist_message, hid, hd, insert_message,
      update_session_doc, newRow]

/-- `add_to_chat_history` never touches the transient document state, the file
store, or the logs. -/
theorem add_frame (st : AppState) (ts q a : String) (rt : Int) (doc : Option String)
    (ct : TxnOutcome) (ins : Bool) :
    (add_to_chat_history st ts q a rt doc ct ins).current_document = st.current_document ∧
    (add_to_chat_history st ts q a rt doc ct ins).vector_db = st.vector_db ∧
    (add_to_chat_history st ts q a rt doc ct ins).current_doc_hash = st.current_doc_hash ∧
    (add_to_chat_history st ts q a rt doc ct ins).files = st.files ∧
    (add_to_chat_history st ts q a rt doc ct ins).process_logs = st.process_logs := by
  cases ct <;> cases ins <;> cases hc : st.chat_id <;> cases hd : st.current_document <;>
    simp [add_to_chat_history, persist_message, hc, hd, insert_message, insert_session,
      update_session_doc]

/-- `get_chat_messages` is the projected filter of the message table whenever the
table is strictly id-ascending. -/
theorem get_chat_messages_eq_filter (db : DB) (cid : Nat)
    (hpw : db.messages.Pairwise (fun a b => a.id < b.id)) :
    get_chat_messages db cid = (db.messages.filter (fun m => m.chat_id == cid)).map
      (fun m => ({ timestamp := m.timestamp, question := m.question, answer := m.answer,
                   response_time := m.response_time, document := m.document } : ChatEntry)) := by
  unfold get_chat_messages
  rw [sortBy_eq_self]
  refine List.Pairwise.imp ?_ (List.Pairwise.sublist (List.filter_sublist _) hpw)
  intro a b h
  simp [Nat.le_of_lt h]

/-- A session with no message rows lists no messages. -/
theorem get_chat_messages_nil (db : DB) (cid : Nat)
    (h : ∀ m ∈ db.messages, m.chat_id ≠ cid) : get_chat_messages db cid = [] := by
  unfold get_chat_messages
  have hf : db.messages.filter (fun m => m.chat_id == cid) = [] := by
    rw [List.filter_eq_nil_iff]
    intro m hm
    simpa using h m hm
  rw [hf]
  rfl

/-- `appendTurns`: a sequence of persisted `add_to_chat_history` calls, one per
entry (the repeated step 5 of `handleTurn`). -/
def appendTurns (st : AppState) (turns : List ChatEntry) : AppState :=
  turns.foldl (fun s e =>
    add_to_chat_history s e.timestamp e.question e.answer e.response_time e.document
      TxnOutcome.ok true) st

/-- One persisted turn appends exactly its entry to the listed messages of the
current session and preserves the id discipline. -/
theorem add_turn_step (st : AppState) (e : ChatEntry) (cid : Nat)
    (hid : st.chat_id = some cid) (hwf : st.db.MsgWF) :
    (add_to_chat_history st e.timestamp e.question e.answer e.response_time
        e.document TxnOutcome.ok true).chat_id = some cid ∧
    (add_to_chat_history st e.timestamp e.question e.answer e.response_time
        e.document TxnOutcome.ok true).db.MsgWF ∧
    get_chat_messages (add_to_chat_history st e.timestamp e.question e.answer
        e.response_time e.document TxnOutcome.ok true).db cid =
      get_chat_messages st.db cid ++ [e] := by
  obtain ⟨hmsgs, hnext, hcid⟩ :=
    add_some_db st cid e.timestamp e.question e.answer e.response_time e.document
      TxnOutcome.ok hid
  obtain ⟨hpw, hbound⟩ := hwf
  have hpw2 : (add_to_chat_history st e.timestamp e.question e.answer e.response_time
      e.document TxnOutcome.ok true).db.messages.Pairwise (fun a b => a.id < b.id) := by
    rw [hmsgs]
    rw [List.pairwise_append]
    refine ⟨hpw, by simp, ?_⟩
    intro x hx y hy
    simp only [newRow, List.mem_singleton] at hy
    rw [hy]
    exact hbound x hx
  refine ⟨hcid, ⟨hpw2, ?_⟩, ?_⟩
  · intro m hm
    rw [hmsgs] at hm
    rw [hnext]
    rcases List.mem_append.mp hm with h1 | h1
    · exact Nat.lt_succ_of_lt (hbound m h1)
    · simp only [newRow, List.mem_singleton] at h1
      rw [h1]
      exact Nat.lt_succ_self _
  · rw [get_chat_messages_eq_filter _ _ hpw2, get_chat_messages_eq_filter _ _ hpw, hmsgs]
    rw [List.filter_append]
    simp [newRow]

/-- Appending a sequence of persisted turns appends exactly those entries to the
listed messages of the current session. -/
theorem appendTurns_messages (turns : List ChatEntry) (st : AppState) (cid : Nat)
    (hid : st.chat_id = some cid) (hwf : st.db.MsgWF) :
    get_chat_messages (appendTurns st turns).db cid =
      get_chat_messages st.db cid ++ turns := by
  induction turns generalizing st with
  | nil => simp [appendTurns]
  | cons e rest ih =>
    obtain ⟨h1, h2, h3⟩ := add_turn_step st e cid hid hwf
    have hfold : appendTurns st (e :: rest) =
        appendTurns (add_to_chat_history st e.timestamp e.question e.answer
          e.response_time e.document TxnOutcome.ok true) rest := rfl
    rw [hfold, ih _ h1 h2, h3]
    simp

/-! ### Claim C5 -/

/-- C5: every `add_to_chat_history` call extends the in-memory chat history with
the new (question, answer, latency, document) entry, whether or not the
persistence step succeeds; the storage failure is swallowed (the function is
total and returns normally), so the interactive turn always completes with the
entry present in memory. -/
theorem c5_history_extended_even_on_storage_failure (st : AppState) (ts q a : String)
    (rt : Int) (doc : Option String) (create_txn : TxnOutcome) (insert_ok : Bool) :
    (add_to_chat_history st ts q a rt doc create_txn insert_ok).chat_history =
      st.chat_history ++ [{ timestamp := ts, question := q, answer := a,
                            response_time := rt, document := doc }] := by
  cases create_txn <;> cases insert_ok <;> cases hc : st.chat_id <;>
    cases hd : st.current_document <;>
    simp [add_to_chat_history, persist_message, hc, hd, insert_message, insert_session,
      update_session_doc]

/-! ### Claim C6 -/

/-- C6: appending any sequence of turns to a fresh session (with persistence
succeeding) makes `get_chat_messages` list exactly those turns, in append order
(the table is kept strictly id-ascending), with matching count. -/
theorem c6_list_messages_in_append_order (st : AppState) (sid : Nat)
    (turns : List ChatEntry) (hid : st.chat_id = some sid) (hwf : st.db.MsgWF)
    (hfresh : ∀ m ∈ st.db.messages, m.chat_id ≠ sid) :
    get_chat_messages (appendTurns st turns).db sid = turns ∧
    (get_chat_messages (appendTurns st turns).db sid).length = turns.length := by
  have h := appendTurns_messages turns st sid hid hwf
  rw [get_chat_messages_nil st.db sid hfresh] at h
  simp only [List.nil_append] at h
  exact ⟨h, by rw [h]⟩

/-- Witness for C6: on a fresh database with one session (id 1) as current, two
concrete turns are listed back in order. -/
theorem c6_witness :
    ((new_chat_click initial_state "t0" TxnOutcome.ok).chat_id = some 1 ∧
      (new_chat_click initial_state "t0" TxnOutcome.ok).db.MsgWF ∧
      (∀ m ∈ (new_chat_click initial_state "t0" TxnOutcome.ok).db.messages, m.chat_id ≠ 1)) ∧
    (get_chat_messages (appendTurns (new_chat_click initial_state "t0" TxnOutcome.ok)
        [{ timestamp := "t1", question := "q1", answer := "a1", response_time := 2,
           document := some "d.pdf" },
         { timestamp := "t2", question := "q2", answer := "a2", response_time := 3,
           document := some "d.pdf" }]).db 1 =
      [{ timestamp := "t1", question := "q1", answer := "a1", response_time := 2,
         document := some "d.pdf" },
       { timestamp := "t2", question := "q2", answer := "a2", response_time := 3,
         document := some "d.pdf" }] ∧
      (get_chat_messages (appendTurns (new_chat_click initial_state "t0" TxnOutcome.ok)
        [{ timestamp := "t1", question := "q1", answer := "a1", response_time := 2,
           document := some "d.pdf" },
         { timestamp := "t2", question := "q2", answer := "a2", response_time := 3,
           document := some "d.pdf" }]).db 1).length = 2) :=
  ⟨⟨by decide, ⟨by decide, by decide⟩, by decide⟩,
    c6_list_messages_in_append_order _ 1 _ (by decide) ⟨by decide, by decide⟩ (by decide)⟩

/-! ### Claim C2 -/

/-- Removing the rows of a session and then filtering for that session yields
nothing. -/
theorem filter_after_delete (msgs : List MessageRow) (cid : Nat) :
    (msgs.filter (fun m => !(m.chat_id == cid))).filter (fun m => m.chat_id == cid) = [] := by
  induction msgs with
  | nil => rfl
  | cons m rest ih =>
    cases hb : (m.chat_id == cid) <;> simp [List.filter_cons, hb, ih]

/-- C2: `delete_chat_session` is atomic. On commit, the session lists no
messages any more and `get_chat_sessions` no longer contains its id; on a
rolled-back transaction the database is fully intact (sessions and messages
unchanged), so no partial deletion can leave orphaned messages. -/
theorem c2_delete_session_atomic (db : DB) (cid : Nat) :
    (get_chat_messages (delete_chat_session db cid true) cid = [] ∧
      ∀ e ∈ get_chat_sessions (delete_chat_session db cid true), e.id ≠ cid) ∧
    delete_chat_session db cid false = db := by
  refine ⟨⟨?_, ?_⟩, by simp [delete_chat_session]⟩
  · simp only [get_chat_messages, delete_chat_session, if_pos]
    rw [filter_after_delete]
    rfl
  · intro e he
    simp only [get_chat_sessions, List.mem_map] at he
    obtain ⟨s, hs, hes⟩ := he
    rw [mem_sortBy] at hs
    simp only [delete_chat_session, if_pos, List.mem_filter] at hs
    have : (s.id == cid) = false := by simpa using hs.2
    rw [← hes]
    simpa using this

/-! ### Claim C9 -/

/-- C9: `start_new_chat_session` inserts a new session row and makes it current,
clears the in-memory chat history and the process logs, and leaves the current
document, the vector DB, the document hash and the processed flag unchanged, so
a new conversation keeps querying the same document without a rebuild. -/
theorem c9_new_session_keeps_document_and_index (st : AppState) (ts : String) :
    (start_new_chat_session st ts TxnOutcome.ok).2 = some st.db.next_session_id ∧
    (∃ s ∈ (start_new_chat_session st ts TxnOutcome.ok).1.db.sessions,
        s.id = st.db.next_session_id) ∧
    (start_new_chat_session st ts TxnOutcome.ok).1.chat_id = some st.db.next_session_id ∧
    (start_new_chat_session st ts TxnOutcome.ok).1.chat_history = [] ∧
    (start_new_chat_session st ts TxnOutcome.ok).1.process_logs = [] ∧
    (start_new_chat_session st ts TxnOutcome.ok).1.current_document = st.current_document ∧
    (start_new_chat_session st ts TxnOutcome.ok).1.vector_db = st.vector_db ∧
    (start_new_chat_session st ts TxnOutcome.ok).1.current_doc_hash = st.current_doc_hash ∧
    (start_new_chat_session st ts TxnOutcome.ok).1.document_processed = st.document_processed ∧
    (start_new_chat_session st ts TxnOutcome.ok).1.files = st.files := by
  refine ⟨rfl, ⟨?_, ?_⟩, rfl, rfl, rfl, rfl, rfl, rfl, rfl, rfl⟩
  case _ =>
    exact { id := st.db.next_session_id, created_at := ts, document_path := none,
            document_unique_name := none, document_display_name := none }
  · constructor
    · simp [start_new_chat_session, insert_session]
    · rfl

/-! ### Claim C7 -/

/-- C7: when some stored file name starts with the upload's base name followed by
the underscore (the date-stamp separator), `save_uploaded_file` returns that
existing file's path and name verbatim and writes nothing: the stored files are
unchanged whatever the uploaded bytes are, so two different files sharing a base
name are conflated and the second upload yields the first file's path. -/
theorem c7_name_dedup_returns_existing_file (st : AppState) (u : UploadedFile)
    (date ts : String) (f : String × List Nat)
    (hfind : st.files.find? (fun g => strStartsWith g.1 (path_stem u.name ++ "_")) = some f) :
    (save_uploaded_file st u date ts true).2 =
      some (UPLOAD_DIRECTORY ++ "/" ++ f.1, f.1) ∧
    (save_uploaded_file st u date ts true).1.files = st.files := by
  simp [save_uploaded_file, hfind, add_log]

/-- Witness for C7: a stored `report_20250101.csv` with bytes `[1]` captures a
later upload named `report.csv` with different bytes `[9, 9]`; the store keeps
the old bytes and the old path is returned. -/
theorem c7_witness :
    (({ initial_state with files := [("report_20250101.csv", [1])] } :
        AppState).files.find?
        (fun g => strStartsWith g.1 (path_stem "report.csv" ++ "_")) =
      some ("report_20250101.csv", [1])) ∧
    (save_uploaded_file { initial_state with files := [("report_20250101.csv", [1])] }
        { name := "report.csv", content := [9, 9] } "20250101" "t" true).2 =
      some (UPLOAD_DIRECTORY ++ "/" ++ "report_20250101.csv", "report_20250101.csv") ∧
    (save_uploaded_file { initial_state with files := [("report_20250101.csv", [1])] }
        { name := "report.csv", content := [9, 9] } "20250101" "t" true).1.files =
      [("report_20250101.csv", [1])] :=
  ⟨by decide,
    (c7_name_dedup_returns_existing_file _ _ _ _ ("report_20250101.csv", [1]) (by decide)).1,
    (c7_name_dedup_returns_existing_file _ _ _ _ ("report_20250101.csv", [1]) (by decide)).2⟩

/-! ### Claim C1 -/

/-- A state in which a previous document's vector DB is active and session 1 has
no recorded document path (session 2 is current). -/
def c1State : AppState :=
  { initial_state with
      db := { sessions :=
                [{ id := 1, created_at := "t0", document_path := none,
                   document_unique_name := none, document_display_name := none },
                 { id := 2, created_at := "t1", document_path := none,
                   document_unique_name := none, document_display_name := none }],
              messages := [], next_session_id := 3, next_message_id := 1 },
      chat_id := some 2,
      current_document := some { path := some "./processed_docs/old_20250101.pdf",
                                 unique_name := some "old_20250101.pdf",
                                 name := some "old.pdf" },
      vector_db := some { collection_name := "doc_11111111" },
      document_processed := true }

/-- Counterexample to C1 as stated: switching from session 2 to session 1, which
has no recorded document path, indeed attempts no rebuild (0 calls), but the
orchestrator is NOT left in a needs-document state: the previous document's
RetrievalIndex and ActiveDocument survive the switch and remain usable for
answering. -/
theorem c1_counterexample :
    c1State.chat_id ≠ some 1 ∧
    get_chat_metadata c1State.db 1 =
      some { path := none, unique_name := none, name := none } ∧
    (switch_session c1State 1 true).2 = 0 ∧
    (switch_session c1State 1 true).1.vector_db =
      some { collection_name := "doc_11111111" } ∧
    (switch_session c1State 1 true).1.current_document =
      some { path := some "./processed_docs/old_20250101.pdf",
             unique_name := some "old_20250101.pdf", name := some "old.pdf" } :=
  ⟨by decide, by decide, by decide, by decide, by decide⟩

/-- C1 (amended): switching to a different session whose stored metadata records
no document path attempts no index rebuild and sets the current session id, but
leaves the ActiveDocument and the RetrievalIndex unchanged rather than clearing
them — the orchestrator is in a needs-document state only when it had no index
before the switch. -/
theorem c1_switch_without_document_keeps_previous_index (st : AppState)
    (target : Nat) (build_ok : Bool) (hne : st.chat_id ≠ some target)
    (hpath : (get_chat_metadata st.db target).bind (fun m => m.path) = none) :
    (switch_session st target build_ok).2 = 0 ∧
    (switch_session st target build_ok).1.chat_id = some target ∧
    (switch_session st target build_ok).1.vector_db = st.vector_db ∧
    (switch_session st target build_ok).1.current_document = st.current_document := by
  simp only [switch_session, if_neg hne]
  cases hm : get_chat_metadata st.db target with
  | none => simp [hm]
  | some meta =>
    have hp : meta.path = none := by
      rw [hm] at hpath
      simpa using hpath
    simp [hm, hp, strTruthy]

/-- Witness for C1 (amended): in `c1State`, switching to the pathless session 1
performs no build and keeps the previous index. -/
theorem c1_witness :
    (c1State.chat_id ≠ some 1 ∧
      (get_chat_metadata c1State.db 1).bind (fun m => m.path) = none) ∧
    ((switch_session c1State 1 true).2 = 0 ∧
      (switch_session c1State 1 true).1.chat_id = some 1 ∧
      (switch_session c1State 1 true).1.vector_db = c1State.vector_db ∧
      (switch_session c1State 1 true).1.current_document = c1State.current_document) :=
  ⟨⟨by decide, by decide⟩,
    c1_switch_without_document_keeps_previous_index c1State 1 true (by decide) (by decide)⟩

/-! ### Claim C4 -/

set_option maxRecDepth 100000 in
/-- Counterexample to C4 as stated: after a full first turn on `report.pdf` with
bytes `[1, 2, 3]`, the middle field of the stored session document metadata is
the date-stamped stored filename `report_20250101.pdf`, which is not the
content-derived fingerprint `get_file_hash [1, 2, 3]` — the content hash is
kept only in the transient `current_doc_hash`, never persisted. -/
theorem c4_counterexample :
    ((get_chat_metadata (process_query_with_document initial_state
        { name := "report.pdf", content := [1, 2, 3] } "q" "t" "20250101"
        true true true "ans" 2 TxnOutcome.ok true).1.db 1).map (fun m => m.unique_name)) =
      some (some "report_20250101.pdf") ∧
    "report_20250101.pdf" ≠ get_file_hash [1, 2, 3] :=
  ⟨by decide, by decide⟩

/-- C4 (amended): for a session that exists in the store, a persisted
`add_to_chat_history` call with an ActiveDocument set upserts that document's
attributes into the session row, and `get_chat_metadata` then returns exactly
the record (path, unique stored filename, display name) — the middle field is
the date-stamped stored filename, not a content-derived fingerprint; for a
session id with no row, `get_chat_metadata` returns `None`. -/
theorem c4_get_session_document_returns_upserted_metadata (st : AppState)
    (cid : Nat) (d : DocMeta) (ts q a : String) (rt : Int) (doc : Option String)
    (hid : st.chat_id = some cid) (hdoc : st.current_document = some d)
    (hex : ∃ s ∈ st.db.sessions, s.id = cid) :
    get_chat_metadata (add_to_chat_history st ts q a rt doc TxnOutcome.ok true).db cid =
      some d ∧
    ∀ (db : DB) (k : Nat), (∀ s ∈ db.sessions, s.id ≠ k) →
      get_chat_metadata db k = none := by
  constructor
  · simp only [add_to_chat_history, persist_message, hid, hdoc]
    exact get_chat_metadata_update (insert_message st.db cid _) cid d.path
      d.unique_name d.name hex
  · exact fun db k h => get_chat_metadata_none db k h

/-- Witness for C4 (amended): one concrete persisted turn on a one-session store
with an active document; the stored metadata comes back verbatim, and a missing
session id yields `None`. -/
theorem c4_witness :
    (({ initial_state with
          db := { sessions := [{ id := 1, created_at := "t0", document_path := none,
                                 document_unique_name := none,
                                 document_display_name := none }],
                  messages := [], next_session_id := 2, next_message_id := 1 },
          chat_id := some 1,
          current_document := some { path := some "./processed_docs/r_20250101.pdf",
                                     unique_name := some "r_20250101.pdf",
                                     name := some "r.pdf" } } : AppState).chat_id = some 1) ∧
    (get_chat_metadata (add_to_chat_history
        { initial_state with
            db := { sessions := [{ id := 1, created_at := "t0", document_path := none,
                                   document_unique_name := none,
                                   document_display_name := none }],
                    messages := [], next_session_id := 2, next_message_id := 1 },
            chat_id := some 1,
            current_document := some { path := some "./processed_docs/r_20250101.pdf",
                                       unique_name := some "r_20250101.pdf",
                                       name := some "r.pdf" } } "t1" "q" "a" 2
        (some "r.pdf") TxnOutcome.ok true).db 1 =
      some { path := some "./processed_docs/r_20250101.pdf",
             unique_name := some "r_20250101.pdf", name := some "r.pdf" }) ∧
    get_chat_metadata emptyDB 7 = none :=
  ⟨by decide,
    (c4_get_session_document_returns_upserted_metadata _ 1
        { path := some "./processed_docs/r_20250101.pdf",
          unique_name := some "r_20250101.pdf", name := some "r.pdf" }
        "t1" "q" "a" 2 (some "r.pdf") (by decide) (by decide)
        ⟨{ id := 1, created_at := "t0", document_path := none,
           document_unique_name := none, document_display_name := none },
         by decide, by decide⟩).1,
    by decide⟩

/-! ### Claim C3 -/

/-- `process_query` never touches the document fingerprint, the vector DB, the
file store, or the current document. -/
theorem process_query_frame (st : AppState) (q ts : String) (lk : Bool)
    (r : String) (rt : Int) (ct : TxnOutcome) (ins : Bool) :
    (process_query st q ts lk r rt ct ins).current_doc_hash = st.current_doc_hash ∧
    (process_query st q ts lk r rt ct ins).vector_db = st.vector_db ∧
    (process_query st q ts lk r rt ct ins).files = st.files ∧
    (process_query st q ts lk r rt ct ins).current_document = st.current_document := by
  cases lk with
  | false => simp [process_query, add_log]
  | true =>
    cases hv : st.vector_db with
    | none => simp [process_query, hv, add_log]
    | some v =>
      cases ct <;> cases ins <;> cases hc : st.chat_id <;> cases hd : st.current_document <;>
        simp [process_query, hv, hc, hd, add_log, add_to_chat_history, persist_message,
          insert_session, insert_message, update_session_doc]

/-- With a succeeding disk write, `save_uploaded_file` always returns a path. -/
theorem save_uploaded_file_ok_isSome (st : AppState) (u : UploadedFile)
    (date ts : String) : ((save_uploaded_file st u date ts true).2).isSome = true := by
  simp only [save_uploaded_file]
  cases hf : st.files.find? (fun f => strStartsWith f.1 (path_stem u.name ++ "_")) <;>
    simp [hf]

/-- The number of index builds of a turn with an upload is decided exactly by
the fingerprint comparison. -/
theorem pqwd_build_count (st : AppState) (u : UploadedFile) (q ts date : String)
    (bk lk : Bool) (r : String) (rt : Int) (ct : TxnOutcome) (ins : Bool) :
    (process_query_with_document st u q ts date true bk lk r rt ct ins).2 =
      if st.current_doc_hash = some (get_file_hash u.content) then 0 else 1 := by
  by_cases h : st.current_doc_hash = some (get_file_hash u.content)
  · rw [if_pos h]
    cases hv : st.vector_db <;>
      simp [process_query_with_document, h, hv]
  · rw [if_neg h]
    simp only [process_query_with_document, if_pos h]
    have hs := save_uploaded_file_ok_isSome
      (add_log (clear_logs st) ts ("Processing new document: " ++ u.name) "INFO") u date ts
    rcases hrw : save_uploaded_file
        (add_log (clear_logs st) ts ("Processing new document: " ++ u.name) "INFO")
        u date ts true with ⟨st2, o⟩
    rw [hrw] at hs
    cases o with
    | none => simp at hs
    | some pn =>
      rcases pn with ⟨p, n⟩
      split
      · rename_i heq
        simp at heq
      · split <;> rfl

/-- After any turn with an upload (and a succeeding disk write), the stored
fingerprint is the uploaded content's fingerprint. -/
theorem pqwd_sets_hash (st : AppState) (u : UploadedFile) (q ts date : String)
    (bk lk : Bool) (r : String) (rt : Int) (ct : TxnOutcome) (ins : Bool) :
    (process_query_with_document st u q ts date true bk lk r rt ct ins).1.current_doc_hash =
      some (get_file_hash u.content) := by
  by_cases h : st.current_doc_hash = some (get_file_hash u.content)
  · cases hv : st.vector_db <;>
      simp [process_query_with_document, h, hv, (process_query_frame _ q ts lk r rt ct ins).1]
  · simp only [process_query_with_document, if_pos h]
    have hs := save_uploaded_file_ok_isSome
      (add_log (clear_logs st) ts ("Processing new document: " ++ u.name) "INFO") u date ts
    rcases hrw : save_uploaded_file
        (add_log (clear_logs st) ts ("Processing new document: " ++ u.name) "INFO")
        u date ts true with ⟨st2, o⟩
    rw [hrw] at hs
    cases o with
    | none => simp at hs
    | some pn =>
      rcases pn with ⟨p, n⟩
      split
      · rename_i heq
        simp at heq
      · split
        · rfl
        · exact (process_query_frame _ q ts lk r rt ct ins).1.trans rfl

/-- In a turn whose fingerprint matches, the existing vector DB is reused:
it is left exactly as it was. -/
theorem pqwd_reuse_vector_db (st : AppState) (u : UploadedFile) (q ts date : String)
    (bk lk : Bool) (r : String) (rt : Int) (ct : TxnOutcome) (ins : Bool)
    (h : st.current_doc_hash = some (get_file_hash u.content)) :
    (process_query_with_document st u q ts date true bk lk r rt ct ins).1.vector_db =
      st.vector_db := by
  cases hv : st.vector_db <;>
    simp [process_query_with_document, h, hv,
      (process_query_frame _ q ts lk r rt ct ins).2.1]

/-- C3: the content fingerprint gates the index rebuild. A turn whose uploaded
bytes hash to the stored fingerprint triggers no build and reuses the existing
index; a turn whose fingerprint differs (or when none is stored) triggers
exactly one fresh build; a second turn uploading the identical bytes never
builds, so starting from no active document two identical uploads build exactly
once. -/
theorem c3_fingerprint_short_circuits_rebuild (st : AppState) (u : UploadedFile)
    (q q2 ts ts2 date date2 : String) (bk lk : Bool) (r r2 : String)
    (rt rt2 : Int) (ct ct2 : TxnOutcome) (ins ins2 : Bool) :
    (st.current_doc_hash = some (get_file_hash u.content) →
      (process_query_with_document st u q ts date true bk lk r rt ct ins).2 = 0 ∧
      (process_query_with_document st u q ts date true bk lk r rt ct ins).1.vector_db =
        st.vector_db) ∧
    (st.current_doc_hash ≠ some (get_file_hash u.content) →
      (process_query_with_document st u q ts date true bk lk r rt ct ins).2 = 1) ∧
    (process_query_with_document
        (process_query_with_document st u q ts date true bk lk r rt ct ins).1
        u q2 ts2 date2 true bk lk r2 rt2 ct2 ins2).2 = 0 ∧
    (st.current_doc_hash = none →
      (process_query_with_document st u q ts date true bk lk r rt ct ins).2 +
        (process_query_with_document
          (process_query_with_document st u q ts date true bk lk r rt ct ins).1
          u q2 ts2 date2 true bk lk r2 rt2 ct2 ins2).2 = 1) := by
  have hsecond : (process_query_with_document
      (process_query_with_document st u q ts date true bk lk r rt ct ins).1
      u q2 ts2 date2 true bk lk r2 rt2 ct2 ins2).2 = 0 := by
    rw [pqwd_build_count]
    rw [if_pos (pqwd_sets_hash st u q ts date bk lk r rt ct ins)]
  refine ⟨fun h => ⟨?_, pqwd_reuse_vector_db st u q ts date bk lk r rt ct ins h⟩,
    fun h => ?_, hsecond, fun h => ?_⟩
  · rw [pqwd_build_count, if_pos h]
  · rw [pqwd_build_count, if_neg h]
  · rw [pqwd_build_count, if_neg (by simp [h]), hsecond]

/-- Witness for C3: with fingerprint `get_file_hash [5]` already stored the turn
builds nothing and keeps the index; from the fresh state the same upload builds
once, and the identical re-upload brings the two-turn total to exactly one. -/
theorem c3_witness :
    (({ initial_state with
          current_doc_hash := some (get_file_hash [5]),
          vector_db := some { collection_name := "doc_11111111" } } :
        AppState).current_doc_hash = some (get_file_hash [5]) ∧
      ((process_query_with_document
          { initial_state with
            current_doc_hash := some (get_file_hash [5]),
            vector_db := some { collection_name := "doc_11111111" } }
          { name := "a.txt", content := [5] } "q" "t" "20250101"
          true true true "r" 2 TxnOutcome.ok true).2 = 0 ∧
        (process_query_with_document
          { initial_state with
            current_doc_hash := some (get_file_hash [5]),
            vector_db := some { collection_name := "doc_11111111" } }
          { name := "a.txt", content := [5] } "q" "t" "20250101"
          true true true "r" 2 TxnOutcome.ok true).1.vector_db =
          some { collection_name := "doc_11111111" })) ∧
    (initial_state.current_doc_hash = none ∧
      (process_query_with_document initial_state { name := "a.txt", content := [5] }
          "q" "t" "20250101" true true true "r" 2 TxnOutcome.ok true).2 +
        (process_query_with_document
          (process_query_with_document initial_state { name := "a.txt", content := [5] }
            "q" "t" "20250101" true true true "r" 2 TxnOutcome.ok true).1
          { name := "a.txt", content := [5] } "q2" "t2" "20250102"
          true true true "r2" 3 TxnOutcome.ok true).2 = 1) :=
  ⟨⟨rfl, (c3_fingerprint_short_circuits_rebuild _ _ "q" "q2" "t" "t2" "20250101" "20250102"
      true true "r" "r2" 2 3 TxnOutcome.ok TxnOutcome.ok true true).1 rfl⟩,
    ⟨rfl, (c3_fingerprint_short_circuits_rebuild initial_state
        { name := "a.txt", content := [5] } "q" "q2" "t" "t2" "20250101" "20250102"
        true true "r" "r2" 2 3 TxnOutcome.ok TxnOutcome.ok true true).2.2.2 rfl⟩⟩

/-! ### Claim C8 -/

/-- C8: `get_chat_sessions` lists all sessions newest first — on an
id-ascending store (creation order) the listed ids are the creation order
reversed — and each entry's last answer is the answer of that session's
message with the highest id, or `None` when the session has no messages. -/
theorem c8_sessions_newest_first_with_last_answer (db : DB)
    (hs : db.sessions.Pairwise (fun a b => a.id < b.id))
    (hm : db.messages.Pairwise (fun a b => a.id < b.id)) :
    ((get_chat_sessions db).map (fun e => e.id) =
      (db.sessions.map (fun s => s.id)).reverse) ∧
    (∀ e ∈ get_chat_sessions db,
      (db.messages.filter (fun m => m.chat_id == e.id) = [] → e.last_answer = none) ∧
      (∀ m ∈ db.messages, m.chat_id = e.id →
        (∀ m2 ∈ db.messages, m2.chat_id = e.id → m2.id ≤ m.id) →
        e.last_answer = some m.answer)) := by
  have hsdesc : db.sessions.Pairwise
      (fun a b : SessionRow => (decide (b.id ≤ a.id)) = false) :=
    hs.imp (fun h => by simpa using Nat.not_le.mpr h)
  constructor
  · rw [get_chat_sessions, sortBy_eq_reverse _ _ hsdesc]
    simp [List.map_map, Function.comp]
  · intro e he
    simp only [get_chat_sessions, List.mem_map] at he
    obtain ⟨s, hsmem, rfl⟩ := he
    have hfm : (db.messages.filter (fun m => m.chat_id == s.id)).Pairwise
        (fun a b => a.id < b.id) := List.Pairwise.sublist (List.filter_sublist _) hm
    have hfdesc : (db.messages.filter (fun m => m.chat_id == s.id)).Pairwise
        (fun a b : MessageRow => (decide (b.id ≤ a.id)) = false) :=
      hfm.imp (fun h => by simpa using Nat.not_le.mpr h)
    constructor
    · intro hnil
      simp only at hnil
      simp [last_answer_of, hnil, sortBy]
    · intro m hmmem hcid hmax
      simp only at hcid hmax
      have hmemf : m ∈ db.messages.filter (fun m => m.chat_id == s.id) :=
        List.mem_filter.mpr ⟨hmmem, by simp [hcid]⟩
      have hboundf : ∀ x ∈ db.messages.filter (fun m => m.chat_id == s.id),
          x.id ≤ m.id := by
        intro x hx
        have hx2 := List.mem_filter.mp hx
        exact hmax x hx2.1 (by simpa using hx2.2)
      show (last_answer_of db s.id) = some m.answer
      rw [last_answer_of, sortBy_eq_reverse _ _ hfdesc, List.head?_reverse,
        getLast?_of_max _ m hfm hmemf hboundf]
      rfl

/-- The concrete store for the C8 witness: sessions created in order 1, 2, 3;
session 1 has two messages (ids 1 and 2), sessions 2 and 3 have none. -/
def c8db : DB :=
  { sessions :=
      [{ id := 1, created_at := "t1", document_path := none,
         document_unique_name := none, document_display_name := some "a.pdf" },
       { id := 2, created_at := "t2", document_path := none,
         document_unique_name := none, document_display_name := none },
       { id := 3, created_at := "t3", document_path := none,
         document_unique_name := none, document_display_name := none }],
    messages :=
      [{ id := 1, chat_id := 1, timestamp := "t1", question := "q1", answer := "a1",
         response_time := 1, document := some "a.pdf" },
       { id := 2, chat_id := 1, timestamp := "t2", question := "q2", answer := "a2",
         response_time := 1, document := some "a.pdf" }],
    next_session_id := 4, next_message_id := 3 }

/-- Witness for C8: on `c8db` the sessions come back as 3, 2, 1 and each entry
carries the newest answer of its session (or none). -/
theorem c8_witness :
    (c8db.sessions.Pairwise (fun a b => a.id < b.id) ∧
      c8db.messages.Pairwise (fun a b => a.id < b.id)) ∧
    (((get_chat_sessions c8db).map (fun e => e.id) =
        (c8db.sessions.map (fun s => s.id)).reverse) ∧
      (∀ e ∈ get_chat_sessions c8db,
        (c8db.messages.filter (fun m => m.chat_id == e.id) = [] →
          e.last_answer = none) ∧
        (∀ m ∈ c8db.messages, m.chat_id = e.id →
          (∀ m2 ∈ c8db.messages, m2.chat_id = e.id → m2.id ≤ m.id) →
          e.last_answer = some m.answer))) ∧
    (get_chat_sessions c8db).map (fun e => e.id) = [3, 2, 1] ∧
    (get_chat_sessions c8db).map (fun e => e.last_answer) =
      [none, none, some "a2"] :=
  ⟨⟨by decide, by decide⟩,
    c8_sessions_newest_first_with_last_answer c8db (by decide) (by decide),
    by decide, by decide⟩

/-! ### Claim C10 -/

/-- `FKInv` unfolded to propositions. -/
theorem FKInv_def (st : AppState) :
    FKInv st ↔
      ((∀ m ∈ st.db.messages, ∃ s ∈ st.db.sessions, s.id = m.chat_id) ∧
        (∀ cid, st.chat_id = some cid → ∃ s ∈ st.db.sessions, s.id = cid)) := by
  cases hc : st.chat_id with
  | none => simp [FKInv, hc, List.all_eq_true, List.any_eq_true]
  | some c => simp [FKInv, hc, List.all_eq_true, List.any_eq_true]

/-- `insert_message` keeps the message-to-session references valid when the
referenced session exists. -/
theorem fk_db_insert_message (db : DB) (cid : Nat) (e : ChatEntry)
    (hex : ∃ s ∈ db.sessions, s.id = cid)
    (h : ∀ m ∈ db.messages, ∃ s ∈ db.sessions, s.id = m.chat_id) :
    ∀ m ∈ (insert_message db cid e).messages,
      ∃ s ∈ (insert_message db cid e).sessions, s.id = m.chat_id := by
  intro m hm
  simp only [insert_message, List.mem_append, List.mem_singleton] at hm
  rcases hm with hm | hm
  · exact h m hm
  · subst hm
    exact hex

/-- `update_session_doc` keeps the message-to-session references valid. -/
theorem fk_db_update (db : DB) (cid : Nat) (p u n : Option String)
    (h : ∀ m ∈ db.messages, ∃ s ∈ db.sessions, s.id = m.chat_id) :
    ∀ m ∈ (update_session_doc db cid p u n).messages,
      ∃ s ∈ (update_session_doc db cid p u n).sessions, s.id = m.chat_id :=
  fun m hm => update_session_doc_exists _ _ _ _ _ _ (h m hm)

/-- `insert_session` keeps the message-to-session references valid. -/
theorem fk_db_insert_session (db : DB) (ts : String)
    (h : ∀ m ∈ db.messages, ∃ s ∈ db.sessions, s.id = m.chat_id) :
    ∀ m ∈ (insert_session db ts).1.messages,
      ∃ s ∈ (insert_session db ts).1.sessions, s.id = m.chat_id := by
  intro m hm
  obtain ⟨s, hs, hid⟩ := h m hm
  exact ⟨s, by simp [insert_session, hs], hid⟩

/-- The row created by `insert_session` exists and carries the new id. -/
theorem exists_new_session (db : DB) (ts : String) :
    ∃ s ∈ (insert_session db ts).1.sessions, s.id = db.next_session_id :=
  ⟨{ id := db.next_session_id, created_at := ts, document_path := none, document_unique_name := none, document_display_name := none }, by simp [insert_session], rfl⟩

/-- A recorded turn preserves the foreign-key invariant except on the one error
path excluded by the hypothesis: a session-creation commit that raises after
`chat_id` was assigned. With no current session and a committing creation, the
session row is created first and the new message row references it; with a
current session the new row references that existing session; any rolled-back
block leaves the database as it was. -/
theorem fk_add (st : AppState) (ts q a : String) (rt : Int) (doc : Option String)
    (ct : TxnOutcome) (ins : Bool)
    (hct : ct = TxnOutcome.raiseCommit → st.chat_id ≠ none)
    (h : FKInv st) : FKInv (add_to_chat_history st ts q a rt doc ct ins) := by
  rw [FKInv_def] at h ⊢
  obtain ⟨h1, h2⟩ := h
  cases hc : st.chat_id with
  | none =>
    cases ct with
    | raiseCommit => exact absurd hc (hct rfl)
    | raiseEarly =>
      have hdb : (add_to_chat_history st ts q a rt doc TxnOutcome.raiseEarly ins).db
          = st.db := by
        simp [add_to_chat_history, hc]
      have hcid2 : (add_to_chat_history st ts q a rt doc
          TxnOutcome.raiseEarly ins).chat_id = none := by
        simp [add_to_chat_history, hc]
      rw [hdb, hcid2]
      exact ⟨h1, fun cid hcid => by simp at hcid⟩
    | ok =>
      have hnew := exists_new_session st.db ts
      cases ins with
      | false =>
        have hdb : (add_to_chat_history st ts q a rt doc TxnOutcome.ok false).db
            = (insert_session st.db ts).1 := by
          simp [add_to_chat_history, persist_message, hc]
        have hcid2 : (add_to_chat_history st ts q a rt doc TxnOutcome.ok false).chat_id
            = some st.db.next_session_id := by
          simp [add_to_chat_history, persist_message, hc, insert_session]
        rw [hdb, hcid2]
        refine ⟨fk_db_insert_session st.db ts h1, ?_⟩
        intro cid hcid
        cases hcid
        exact hnew
      | true =>
        have hmsg := fk_db_insert_message (insert_session st.db ts).1
          st.db.next_session_id
          { timestamp := ts, question := q, answer := a, response_time := rt,
            document := doc }
          hnew (fk_db_insert_session st.db ts h1)
        cases hd : st.current_document with
        | none =>
          have hdb : (add_to_chat_history st ts q a rt doc TxnOutcome.ok true).db =
              insert_message (insert_session st.db ts).1 st.db.next_session_id
                { timestamp := ts, question := q, answer := a, response_time := rt,
                  document := doc } := by
            simp [add_to_chat_history, persist_message, hc, hd, insert_session]
          have hcid2 : (add_to_chat_history st ts q a rt doc TxnOutcome.ok true).chat_id =
              some st.db.next_session_id := by
            simp [add_to_chat_history, persist_message, hc, hd, insert_session]
          rw [hdb, hcid2]
          refine ⟨hmsg, ?_⟩
          intro cid hcid
          cases hcid
          exact hnew
        | some d =>
          have hdb : (add_to_chat_history st ts q a rt doc TxnOutcome.ok true).db =
              update_session_doc (insert_message (insert_session st.db ts).1
                st.db.next_session_id
                { timestamp := ts, question := q, answer := a, response_time := rt,
                  document := doc }) st.db.next_session_id d.path d.unique_name
                d.name := by
            simp [add_to_chat_history, persist_message, hc, hd, insert_session]
          have hcid2 : (add_to_chat_history st ts q a rt doc TxnOutcome.ok true).chat_id =
              some st.db.next_session_id := by
            simp [add_to_chat_history, persist_message, hc, hd, insert_session]
          rw [hdb, hcid2]
          refine ⟨fk_db_update _ _ _ _ _ hmsg, ?_⟩
          intro cid hcid
          cases hcid
          exact update_session_doc_exists _ _ _ _ _ _ hnew
  | some cid0 =>
    have hex0 : ∃ s ∈ st.db.sessions, s.id = cid0 := h2 cid0 hc
    cases ins with
    | false =>
      have hdb : (add_to_chat_history st ts q a rt doc ct false).db = st.db := by
        simp [add_to_chat_history, persist_message, hc]
      have hcid2 : (add_to_chat_history st ts q a rt doc ct false).chat_id
          = some cid0 := by
        simp [add_to_chat_history, persist_message, hc]
      rw [hdb, hcid2]
      refine ⟨h1, ?_⟩
      intro cid hcid
      cases hcid
      exact hex0
    | true =>
      have hmsg := fk_db_insert_message st.db cid0
        { timestamp := ts, question := q, answer := a, response_time := rt,
          document := doc } hex0 h1
      cases hd : st.current_document with
      | none =>
        have hdb : (add_to_chat_history st ts q a rt doc ct true).db =
            insert_message st.db cid0
              { timestamp := ts, question := q, answer := a, response_time := rt,
                document := doc } := by
          simp [add_to_chat_history, persist_message, hc, hd]
        have hcid2 : (add_to_chat_history st ts q a rt doc ct true).chat_id =
            some cid0 := by
          simp [add_to_chat_history, persist_message, hc, hd]
        rw [hdb, hcid2]
        refine ⟨hmsg, ?_⟩
        intro cid hcid
        cases hcid
        exact hex0
      | some d =>
        have hdb : (add_to_chat_history st ts q a rt doc ct true).db =
            update_session_doc (insert_message st.db cid0
              { timestamp := ts, question := q, answer := a, response_time := rt,
                document := doc }) cid0 d.path d.unique_name d.name := by
          simp [add_to_chat_history, persist_message, hc, hd]
        have hcid2 : (add_to_chat_history st ts q a rt doc ct true).chat_id =
            some cid0 := by
          simp [add_to_chat_history, persist_message, hc, hd]
        rw [hdb, hcid2]
        refine ⟨fk_db_update _ _ _ _ _ hmsg, ?_⟩
        intro cid hcid
        cases hcid
        exact update_session_doc_exists _ _ _ _ _ _ hex0

/-- `save_uploaded_file` never touches the database or the current session id. -/
theorem save_frame (st : AppState) (u : UploadedFile) (date ts : String) (ok : Bool) :
    (save_uploaded_file st u date ts ok).1.db = st.db ∧
    (save_uploaded_file st u date ts ok).1.chat_id = st.chat_id := by
  cases ok with
  | false => exact ⟨rfl, rfl⟩
  | true =>
    simp only [save_uploaded_file]
    cases hf : st.files.find? (fun f => strStartsWith f.1 (path_stem u.name ++ "_")) <;>
      simp [hf, add_log]

/-- `start_new_chat_session` preserves the foreign-key invariant unless its
commit raises after the new id was assigned (`raiseCommit` leaves `chat_id`
pointing at the rolled-back row). -/
theorem fk_start_new (st : AppState) (ts : String) (ct : TxnOutcome)
    (hct : ct ≠ TxnOutcome.raiseCommit) (h : FKInv st) :
    FKInv (start_new_chat_session st ts ct).1 := by
  rw [FKInv_def] at h ⊢
  obtain ⟨h1, h2⟩ := h
  cases ct with
  | raiseCommit => exact absurd rfl hct
  | raiseEarly => exact ⟨h1, h2⟩
  | ok =>
    refine ⟨fk_db_insert_session st.db ts h1, ?_⟩
    intro cid hcid
    have he : st.db.next_session_id = cid := by
      simpa [start_new_chat_session, insert_session] using hcid
    subst he
    exact exists_new_session st.db ts

/-- The New Chat click preserves the foreign-key invariant unless the session
commit raises after the new id was assigned. -/
theorem fk_new_chat_click (st : AppState) (ts : String) (ct : TxnOutcome)
    (hct : ct ≠ TxnOutcome.raiseCommit) (h : FKInv st) :
    FKInv (new_chat_click st ts ct) := by
  rw [FKInv_def] at h ⊢
  obtain ⟨h1, h2⟩ := h
  cases ct with
  | raiseCommit => exact absurd rfl hct
  | raiseEarly =>
    refine ⟨h1, ?_⟩
    intro cid hcid
    simp [new_chat_click, start_new_chat_session] at hcid
  | ok =>
    refine ⟨fk_db_insert_session st.db ts h1, ?_⟩
    intro cid hcid
    have he : st.db.next_session_id = cid := by
      simpa [new_chat_click, start_new_chat_session, insert_session] using hcid
    subst he
    exact exists_new_session st.db ts

/-- Switching to an existing session preserves the foreign-key invariant. -/
theorem fk_switch (st : AppState) (tid : Nat) (bk : Bool)
    (hex : ∃ s ∈ st.db.sessions, s.id = tid) (h : FKInv st) :
    FKInv (switch_session st tid bk).1 := by
  rw [FKInv_def] at h ⊢
  obtain ⟨h1, h2⟩ := h
  by_cases hc : st.chat_id = some tid
  · rw [switch_session, if_pos hc]
    exact ⟨h1, fun cid hcid => h2 cid hcid⟩
  · have hpair : (switch_session st tid bk).1.db = st.db ∧
        (switch_session st tid bk).1.chat_id = some tid := by
      cases hm : get_chat_metadata st.db tid with
      | none => simp [switch_session, if_neg hc, hm]
      | some meta =>
        cases ht : strTruthy meta.path with
        | false => simp [switch_session, if_neg hc, hm, ht]
        | true =>
          cases hp : meta.path with
          | none =>
            rw [hp] at ht
            simp [strTruthy] at ht
          | some p =>
            rw [hp] at ht
            cases hv : create_vector_db_from_document st.files bk p with
            | none => simp [switch_session, if_neg hc, hm, ht, hp, hv]
            | some v => simp [switch_session, if_neg hc, hm, ht, hp, hv]
    rw [hpair.1, hpair.2]
    refine ⟨h1, ?_⟩
    intro cid hcid
    cases hcid
    exact hex

/-- The Delete click preserves the foreign-key invariant: on commit the session
row and all of its message rows vanish together; on rollback nothing changes. -/
theorem fk_delete (st : AppState) (ok : Bool) (h : FKInv st) :
    FKInv (delete_current_session st ok) := by
  rw [FKInv_def] at h ⊢
  obtain ⟨h1, h2⟩ := h
  refine ⟨?_, ?_⟩
  · intro m hm
    cases hc : st.chat_id with
    | none =>
      simp only [delete_current_session, hc] at hm ⊢
      exact h1 m hm
    | some cid =>
      cases ok with
      | false =>
        simp only [delete_current_session, hc, delete_chat_session,
          Bool.false_eq_true, if_false] at hm ⊢
        exact h1 m hm
      | true =>
        simp only [delete_current_session, hc, delete_chat_session, if_true] at hm ⊢
        rw [List.mem_filter] at hm
        obtain ⟨hm1, hm2⟩ := hm
        obtain ⟨s, hs, hid⟩ := h1 m hm1
        refine ⟨s, ?_, hid⟩
        rw [List.mem_filter]
        refine ⟨hs, ?_⟩
        rw [hid]
        simpa using hm2
  · intro cid hcid
    simp [delete_current_session] at hcid

/-- `process_query` preserves the foreign-key invariant (on abort nothing
changes; on success the turn is recorded via `add_to_chat_history`) unless a
session-creation commit raises with no current session. -/
theorem fk_process_query (st : AppState) (q ts : String) (lk : Bool) (r : String)
    (rt : Int) (ct : TxnOutcome) (ins : Bool)
    (hct : ct = TxnOutcome.raiseCommit → st.chat_id ≠ none)
    (h : FKInv st) : FKInv (process_query st q ts lk r rt ct ins) := by
  cases lk with
  | false =>
    refine FKInv_of_eq st _ ?_ ?_ h <;> simp [process_query, add_log]
  | true =>
    cases hv : st.vector_db with
    | none =>
      refine FKInv_of_eq st _ ?_ ?_ h <;> simp [process_query, hv, add_log]
    | some v =>
      simp only [process_query, add_log, hv, if_true]
      exact fk_add _ _ _ _ _ _ ct ins (fun hh => hct hh)
        (FKInv_of_eq st _ rfl rfl h)

/-- A full turn with an upload preserves the foreign-key invariant unless a
session-creation commit raises with no current session. -/
theorem fk_pqwd (st : AppState) (u : UploadedFile) (q ts date : String)
    (sk bk lk : Bool) (r : String) (rt : Int) (ct : TxnOutcome) (ins : Bool)
    (hct : ct = TxnOutcome.raiseCommit → st.chat_id ≠ none)
    (h : FKInv st) :
    FKInv (process_query_with_document st u q ts date sk bk lk r rt ct ins).1 := by
  by_cases hh : st.current_doc_hash = some (get_file_hash u.content)
  · simp only [process_query_with_document, if_neg (not_not_intro hh)]
    cases hv : st.vector_db.isSome with
    | false => simpa using h
    | true => simpa using fk_process_query st q ts lk r rt ct ins hct h
  · simp only [process_query_with_document, if_pos hh]
    rcases hrw : save_uploaded_file
        (add_log (clear_logs st) ts ("Processing new document: " ++ u.name) "INFO")
        u date ts sk with ⟨st2, o⟩
    have hfr : st2.db = st.db ∧ st2.chat_id = st.chat_id := by
      have hx := save_frame
        (add_log (clear_logs st) ts ("Processing new document: " ++ u.name) "INFO")
        u date ts sk
      rw [hrw] at hx
      exact hx
    cases o with
    | none => exact FKInv_of_eq st st2 hfr.1 hfr.2 h
    | some pn =>
      rcases pn with ⟨p, n⟩
      split
      · rename_i heq
        simp at heq
      · rename_i st3 fp ufn heq
        simp only [Prod.mk.injEq, Option.some.injEq] at heq
        obtain ⟨he1, he2, he3⟩ := heq
        subst he1
        subst he2
        subst he3
        split
        · exact FKInv_of_eq st _ hfr.1 hfr.2 h
        · refine fk_process_query _ q ts lk r rt ct ins ?_
            (FKInv_of_eq st _ hfr.1 hfr.2 h)
          intro hh2
          have hne := hct hh2
          simpa [hfr.2] using hne

/-- A persisted turn with no current session creates the session row first, in
the same operation, and points the new message row at it. -/
theorem add_none_db (st : AppState) (ts q a : String) (rt : Int) (doc : Option String)
    (hc : st.chat_id = none) :
    (add_to_chat_history st ts q a rt doc TxnOutcome.ok true).db.messages =
      st.db.messages ++ [newRow st.db st.db.next_session_id ts q a rt doc] ∧
    (∃ s ∈ (add_to_chat_history st ts q a rt doc TxnOutcome.ok true).db.sessions,
      s.id = st.db.next_session_id) ∧
    (add_to_chat_history st ts q a rt doc TxnOutcome.ok true).chat_id =
      some st.db.next_session_id := by
  cases hd : st.current_document with
  | none =>
    refine ⟨?_, ?_, ?_⟩
    · simp [add_to_chat_history, persist_message, hc, hd, insert_session,
        insert_message, newRow]
    · refine ⟨{ id := st.db.next_session_id, created_at := ts, document_path := none, document_unique_name := none, document_display_name := none }, ?_, rfl⟩
      simp [add_to_chat_history, persist_message, hc, hd, insert_session, insert_message]
    · simp [add_to_chat_history, persist_message, hc, hd, insert_session]
  | some d =>
    refine ⟨?_, ?_, ?_⟩
    · simp [add_to_chat_history, persist_message, hc, hd, insert_session,
        insert_message, update_session_doc, newRow]
    · have hdb : (add_to_chat_history st ts q a rt doc TxnOutcome.ok true).db =
          update_session_doc (insert_message (insert_session st.db ts).1
            st.db.next_session_id
            { timestamp := ts, question := q, answer := a, response_time := rt,
              document := doc }) st.db.next_session_id d.path d.unique_name d.name := by
        simp [add_to_chat_history, persist_message, hc, hd, insert_session]
      rw [hdb]
      exact update_session_doc_exists _ _ _ _ _ _ (exists_new_session st.db ts)
    · simp [add_to_chat_history, persist_message, hc, hd, insert_session]

/-- The foreign-key invariant is decidable (it is a Boolean check). -/
instance (st : AppState) : Decidable (FKInv st) := by
  unfold FKInv
  infer_instance

/-- C10: the foreign-key invariant fails on the code's commit-failure path, so
the claim that it holds after every operation is the declared intent (the
`FOREIGN KEY` of `_init_db`) and the code breaks it. On the fresh store, a
first recorded turn whose session-creation commit raises after
`st.session_state.chat_id = cur.lastrowid` was executed leaves the database
unchanged but `chat_id = some 1`; the next successfully persisted turn skips
session creation and inserts a message row with `chat_id = 1` while the
session table is still empty — a persisted message row referencing a
non-existent session (SQLite never enforces the declared foreign key because
the `foreign_keys` pragma is never enabled). -/
theorem c10_fk_violated_by_commit_failure :
    FKInv initial_state ∧
    (add_to_chat_history initial_state "t1" "q1" "a1" 2 none
        TxnOutcome.raiseCommit true).chat_id = some 1 ∧
    (add_to_chat_history initial_state "t1" "q1" "a1" 2 none
        TxnOutcome.raiseCommit true).db = initial_state.db ∧
    (add_to_chat_history (add_to_chat_history initial_state "t1" "q1" "a1" 2 none
        TxnOutcome.raiseCommit true) "t2" "q2" "a2" 3 none TxnOutcome.ok
        true).db.sessions = [] ∧
    (add_to_chat_history (add_to_chat_history initial_state "t1" "q1" "a1" 2 none
        TxnOutcome.raiseCommit true) "t2" "q2" "a2" 3 none TxnOutcome.ok
        true).db.messages.map (fun m => m.chat_id) = [1] ∧
    ¬ FKInv (add_to_chat_history (add_to_chat_history initial_state "t1" "q1" "a1" 2
        none TxnOutcome.raiseCommit true) "t2" "q2" "a2" 3 none TxnOutcome.ok true) :=
  ⟨by decide, by decide, by decide, by decide, by decide, by decide⟩
